import Mathlib

/-!
Verification of the `pallet-tick-stream` escrow/metering ledger
(`src/backend/pallets/tick-stream/src/lib.rs`) against its specification.

The pallet is embedded shallowly:

* the runtime fixes `Balance = u128` and `last_tick : u32`; balances are
  modelled as `Nat` with explicit wrapping (`% 2^128`, `% 2^32`) exactly where
  the Rust code performs plain (release-mode, wrapping) arithmetic;
* `AccountId` is abstracted as `Nat`;
* the two storage maps (`Streams : StorageMap<u128, Stream>` and
  `Balances : StorageDoubleMap<u128, AccountId, Balance>`) are association
  lists with overwrite-on-insert, matching `StorageMap::insert`;
* the external `Currency` capability (`reserve`, `transfer`) is modelled from
  its documented contract (spec §6): an account holds a free and a reserved
  balance; `reserve` moves free → reserved and fails when free funds are
  insufficient; `transfer` moves free funds between accounts and fails when
  the sender's free funds are insufficient (the existential-deposit refinement
  of `KeepAlive` is abstracted to zero, which no claim depends on);
* FRAME executes each dispatchable inside a storage transaction and reverts
  all storage changes when the dispatchable returns an error; this is the
  `commit` wrapper below.  The raw bodies (`create_stream`, `join_stream`,
  `tick`) thread state through each individual write, so that a body may
  leave a partially-written state which `commit` then discards.
-/

namespace Vilokanam

/-- `2^128`, the modulus of the runtime's `Balance = u128` arithmetic. -/
def U128MOD : Nat := 2 ^ 128

/-- `2^32`, the modulus of `u32` arithmetic (`last_tick`, `ticks`). -/
def U32MOD : Nat := 2 ^ 32

/-- Release-mode Rust `u128` multiplication: wraps modulo `2^128`.
This is the semantics of the plain `*` used at
`join_stream` (line 85) and `tick` (line 102). -/
def mul128 (a b : Nat) : Nat := (a * b) % U128MOD

/-- Release-mode Rust `u128` subtraction: wraps modulo `2^128`
(for `a b < 2^128`).  Used for `reserved - cost` in `tick` (line 105). -/
def sub128 (a b : Nat) : Nat := (a + U128MOD - b) % U128MOD

/-- Release-mode Rust `u32` addition: wraps modulo `2^32`.
This is the semantics of `stream.last_tick += ticks` in `tick` (line 106). -/
def add32 (a b : Nat) : Nat := (a + b) % U32MOD

/-- The per-stream record stored in the `Streams` map
(struct `Stream<T>` in the pallet). -/
structure Stream where
  creator : Nat
  price_per_second : Nat
  last_tick : Nat
deriving DecidableEq

/-- One account of the external funds ledger: a free and a reserved balance
(the `Currency` trait's view of an account). -/
structure Account where
  free : Nat
  reserved : Nat
deriving DecidableEq

/-- Association-list lookup: the model of `StorageMap::get`. -/
def mapGet {κ α : Type} [DecidableEq κ] (k : κ) : List (κ × α) → Option α
  | [] => none
  | (k', v) :: rest => if k = k' then some v else mapGet k rest

/-- Association-list overwrite-insert: the model of `StorageMap::insert`. -/
def mapInsert {κ α : Type} [DecidableEq κ] (k : κ) (v : α) : List (κ × α) → List (κ × α)
  | [] => [(k, v)]
  | (k', v') :: rest => if k = k' then (k, v) :: rest else (k', v') :: mapInsert k v rest

/-- The full ledger state: the pallet's two storage maps plus the external
funds ledger's accounts. -/
structure State where
  streams : List (Nat × Stream)
  balances : List ((Nat × Nat) × Nat)
  accounts : Nat → Account

/-- Dispatch origin (`OriginFor<T>`): signed, none (unsigned), or root. -/
inductive Origin where
  | signed (who : Nat)
  | none_
  | root
deriving DecidableEq

/-- The pallet's three dispatchables, without their origin
(matching `Call<T>` as used by `validate_unsigned`). -/
inductive Call where
  | create_stream (stream_id price_per_second : Nat)
  | join_stream (stream_id max_seconds : Nat)
  | tick (stream_id viewer ticks : Nat)
deriving DecidableEq

/-- The pallet's error enum (`Error<T>`): note there is no `StreamExists`
variant in the source. -/
inductive PalletError where
  | StreamNotFound
  | InsufficientBalance
  | TickTooEarly
deriving DecidableEq

/-- Errors a dispatchable can return: a bad origin, a pallet error, or a
funds-ledger failure (from `Currency::reserve` / `Currency::transfer`). -/
inductive DispatchError where
  | badOrigin
  | module (e : PalletError)
  | fundsUnavailable
deriving DecidableEq

/-- The pallet's events (`Event<T>`). -/
inductive Event where
  | StreamCreated (stream_id creator price : Nat)
  | TickProcessed (stream_id viewer ticks : Nat)
  | Withdrawn (stream_id amount : Nat)
deriving DecidableEq

/-- Result of running a dispatchable body: the state as left by the body
(possibly partially written on an error path), the events deposited, the
`(from, to, amount)` transfers performed on the funds ledger, and the error
if any. -/
structure RawOutcome where
  state : State
  events : List Event
  transfers : List (Nat × Nat × Nat)
  error : Option DispatchError

/-- Modelled from the spec (§6): the funds-ledger capability
`reserve(account, amount) -> Result<(), InsufficientFunds>`; implemented by
`pallet_balances`, which is outside this repository.  Moves `amount` from the
account's free balance to its reserved balance, failing when free funds are
insufficient. -/
def reserveOp (accs : Nat → Account) (who amt : Nat) : Option (Nat → Account) :=
  let a := accs who
  if amt ≤ a.free then
    some (fun x => if x = who then ⟨a.free - amt, a.reserved + amt⟩ else accs x)
  else
    none

/-- Modelled from the spec (§6): the funds-ledger capability
`transfer(from, to, amount) -> Result<(), InsufficientFunds>`; implemented by
`pallet_balances`, which is outside this repository.  Moves `amount` of free
balance from `src` to `dst`, failing when `src`'s free funds are insufficient
(the `KeepAlive` existential deposit is abstracted to zero). -/
def transferOp (accs : Nat → Account) (src dst amt : Nat) : Option (Nat → Account) :=
  let a := accs src
  if amt ≤ a.free then
    let accs1 := fun x => if x = src then ⟨a.free - amt, a.reserved⟩ else accs x
    let b := accs1 dst
    some (fun x => if x = dst then ⟨b.free + amt, b.reserved⟩ else accs1 x)
  else
    none

/-- Body of `create_stream` (lib.rs lines 57–74): requires a signed origin,
rejects (with `Error::StreamNotFound`, as the source does) when `stream_id`
is already present, otherwise inserts a fresh `Stream` with `last_tick = 0`
and deposits `StreamCreated`. -/
def create_stream (st : State) (o : Origin) (stream_id price_per_second : Nat) : RawOutcome :=
  match o with
  | .signed who =>
    match mapGet stream_id st.streams with
    | some _ => ⟨st, [], [], some (.module .StreamNotFound)⟩
    | none =>
      ⟨{ st with streams := mapInsert stream_id ⟨who, price_per_second, 0⟩ st.streams },
        [.StreamCreated stream_id who price_per_second], [], none⟩
  | _ => ⟨st, [], [], some .badOrigin⟩

/-- Body of `join_stream` (lib.rs lines 78–89): requires a signed origin,
looks up the stream, computes `amount = price_per_second * max_seconds` with
wrapping `u128` multiplication, reserves `amount` on the caller's funds, and
overwrites the `(stream_id, caller)` entry of `Balances` with `amount`.
Deposits no event. -/
def join_stream (st : State) (o : Origin) (stream_id max_seconds : Nat) : RawOutcome :=
  match o with
  | .signed who =>
    match mapGet stream_id st.streams with
    | none => ⟨st, [], [], some (.module .StreamNotFound)⟩
    | some str =>
      let amount := mul128 str.price_per_second max_seconds
      match reserveOp st.accounts who amount with
      | none => ⟨st, [], [], some .fundsUnavailable⟩
      | some accs =>
        ⟨{ st with
            accounts := accs
            balances := mapInsert (stream_id, who) amount st.balances }, [], [], none⟩
  | _ => ⟨st, [], [], some .badOrigin⟩

/-- Body of `tick` (lib.rs lines 93–110): requires a none (unsigned) origin,
looks up the stream and the `(stream_id, viewer)` reservation, computes
`cost = price_per_second * ticks` with wrapping `u128` multiplication,
requires `reserved >= cost`, writes back `reserved - cost`, transfers `cost`
from the viewer to the creator on the funds ledger, bumps `last_tick` by
`ticks` with wrapping `u32` addition, and deposits `TickProcessed`.
Note the `Balances` write precedes the transfer, as in the source. -/
def tick (st : State) (o : Origin) (stream_id viewer ticks : Nat) : RawOutcome :=
  match o with
  | .none_ =>
    match mapGet stream_id st.streams with
    | none => ⟨st, [], [], some (.module .StreamNotFound)⟩
    | some str =>
      match mapGet (stream_id, viewer) st.balances with
      | none => ⟨st, [], [], some (.module .InsufficientBalance)⟩
      | some reserved =>
        let cost := mul128 str.price_per_second ticks
        if cost ≤ reserved then
          let st1 := { st with
            balances := mapInsert (stream_id, viewer) (sub128 reserved cost) st.balances }
          match transferOp st1.accounts viewer str.creator cost with
          | none => ⟨st1, [], [], some .fundsUnavailable⟩
          | some accs =>
            ⟨{ st1 with
                accounts := accs
                streams := mapInsert stream_id
                  { str with last_tick := add32 str.last_tick ticks } st1.streams },
              [.TickProcessed stream_id viewer ticks], [(viewer, str.creator, cost)], none⟩
        else ⟨st, [], [], some (.module .InsufficientBalance)⟩
  | _ => ⟨st, [], [], some .badOrigin⟩

/-- FRAME's transactional dispatch layer: a dispatchable that returns an
error has all its storage changes reverted (state restored to the snapshot
taken before the call), and deposits nothing. -/
def commit (st : State) (r : RawOutcome) : RawOutcome :=
  match r.error with
  | some e => ⟨st, [], [], some e⟩
  | none => r

/-- Apply one call to the ledger, with FRAME's transactional semantics. -/
def dispatch (st : State) (o : Origin) (c : Call) : RawOutcome :=
  commit st
    (match c with
     | .create_stream sid p => create_stream st o sid p
     | .join_stream sid m => join_stream st o sid m
     | .tick sid v t => tick st o sid v t)

/-- Run a sequence of calls, each with its origin. -/
def runS (st : State) : List (Origin × Call) → State
  | [] => st
  | (o, c) :: rest => runS (dispatch st o c).state rest

/-- Genesis ledger state: empty storage maps, arbitrary initial funds. -/
def genesis (accounts0 : Nat → Account) : State := ⟨[], [], accounts0⟩

/-- The transaction-validity record built by `validate_unsigned`
(lib.rs lines 115–125): priority, `provides` dedup tags, longevity,
propagation flag. -/
structure ValidTransaction where
  priority : Nat
  provides : List (String × String)
  longevity : Nat
  propagate : Bool
deriving DecidableEq

/-- Outcome of the admission policy: a valid transaction, or rejection with
`InvalidTransaction::Call`. -/
inductive TransactionValidity where
  | valid (v : ValidTransaction)
  | invalidCall
deriving DecidableEq

/-- The admission policy (`validate_unsigned`, lib.rs lines 112–126): a
`tick` call gets priority 100, the constant dedup tag
`("vilokanam", "tick")`, longevity 5 and propagation; every other call is
rejected with `InvalidTransaction::Call`.  It inspects only the call, never
the ledger. -/
def validate_unsigned : Call → TransactionValidity
  | .tick _ _ _ => .valid ⟨100, [("vilokanam", "tick")], 5, true⟩
  | _ => .invalidCall

/-- `true` exactly on `tick` calls. -/
def isTick : Call → Bool
  | .tick _ _ _ => true
  | _ => false

/-- Total reservation currently recorded in the `Balances` map for stream
`s`, summed over all viewers. -/
def streamSum (s : Nat) : List ((Nat × Nat) × Nat) → Nat
  | [] => 0
  | (k, a) :: rest => (if k.1 = s then a else 0) + streamSum s rest

/-- Every entry in the `Balances` map fits in a `u128`. -/
def EntriesBounded (l : List ((Nat × Nat) × Nat)) : Prop :=
  ∀ k a, mapGet k l = some a → a < U128MOD

/-- Ledger state augmented with per-stream running totals of a trace:
`cred s` — funds actually moved on the funds ledger by successful `tick`
calls on `s` (summed from the transfers each call performed);
`specCred s` — the sum of `price_per_second * ticks` (wrapping, as computed)
over successful `tick` calls on `s`;
`esc s` — the cumulative amounts escrowed for `s` by successful
`join_stream` calls. -/
structure TState where
  st : State
  cred : Nat → Nat
  specCred : Nat → Nat
  esc : Nat → Nat

/-- Apply one call and update the running totals. -/
def stepAcc (ts : TState) (o : Origin) (c : Call) : TState :=
  let out := dispatch ts.st o c
  match c, out.error with
  | .join_stream sid m, none =>
    let a := match mapGet sid ts.st.streams with
      | some str => mul128 str.price_per_second m
      | none => 0
    { st := out.state
      cred := ts.cred
      specCred := ts.specCred
      esc := fun s => if s = sid then ts.esc s + a else ts.esc s }
  | .tick sid _ t, none =>
    let a := match mapGet sid ts.st.streams with
      | some str => mul128 str.price_per_second t
      | none => 0
    let moved := (out.transfers.map (fun x => x.2.2)).sum
    { st := out.state
      cred := fun s => if s = sid then ts.cred s + moved else ts.cred s
      specCred := fun s => if s = sid then ts.specCred s + a else ts.specCred s
      esc := ts.esc }
  | _, _ => ⟨out.state, ts.cred, ts.specCred, ts.esc⟩

/-- Run a sequence of calls, tracking the running totals. -/
def runAcc (ts : TState) : List (Origin × Call) → TState
  | [] => ts
  | (o, c) :: rest => runAcc (stepAcc ts o c) rest

/-- Genesis with zeroed running totals. -/
def genesisT (accounts0 : Nat → Account) : TState :=
  ⟨genesis accounts0, fun _ => 0, fun _ => 0, fun _ => 0⟩

/-- The sum of `price_per_second * ticks` — with TRUE (unwrapped) natural
multiplication, as the specification's words read — over the successful
`tick` calls on stream `s` of a trace, each term taken at the pre-state of
its call.  Used to compare the spec's stated sum against the funds the code
actually moves. -/
def mathCred (st : State) (s : Nat) : List (Origin × Call) → Nat
  | [] => 0
  | (o, c) :: rest =>
    let out := dispatch st o c
    let inc := match c, out.error with
      | .tick sid _ t, none =>
        if sid = s then
          match mapGet sid st.streams with
          | some str => str.price_per_second * t
          | none => 0
        else 0
      | _, _ => 0
    inc + mathCred out.state s rest

/-- The inductive invariant tying the running totals to the ledger:
credits match the per-tick costs, credits plus the outstanding reservations
never exceed the escrow, and all reservations fit in a `u128`. -/
def Inv (ts : TState) : Prop :=
  (∀ s, ts.cred s = ts.specCred s) ∧
  (∀ s, ts.cred s + streamSum s ts.st.balances ≤ ts.esc s) ∧
  EntriesBounded ts.st.balances

/-! ### Helper lemmas: maps, sums, the transactional wrapper -/

theorem mapGet_insert_self {κ α : Type} [DecidableEq κ] (k : κ) (v : α)
    (l : List (κ × α)) : mapGet k (mapInsert k v l) = some v := by
  induction l with
  | nil => simp [mapGet, mapInsert]
  | cons hd tl ih =>
    obtain ⟨k', v'⟩ := hd
    by_cases h : k = k' <;> simp [mapGet, mapInsert, h, ih]

theorem mapGet_insert_ne {κ α : Type} [DecidableEq κ] {k k' : κ} (h : k' ≠ k)
    (v : α) (l : List (κ × α)) : mapGet k' (mapInsert k v l) = mapGet k' l := by
  induction l with
  | nil => simp [mapGet, mapInsert, h]
  | cons hd tl ih =>
    obtain ⟨k0, v0⟩ := hd
    by_cases hk : k = k0
    · subst hk; simp [mapGet, mapInsert, h]
    · by_cases hk' : k' = k0 <;> simp [mapGet, mapInsert, hk, hk', ih]

theorem streamSum_insert_none {s v a : Nat} {l : List ((Nat × Nat) × Nat)}
    (h : mapGet (s, v) l = none) :
    streamSum s (mapInsert (s, v) a l) = a + streamSum s l := by
  induction l with
  | nil => simp [streamSum, mapInsert]
  | cons hd tl ih =>
    obtain ⟨k, b⟩ := hd
    by_cases hk : (s, v) = k
    · subst hk; simp [mapGet] at h
    · simp only [mapGet, if_neg hk] at h
      simp only [mapInsert, if_neg hk, streamSum]
      rw [ih h]
      omega

theorem streamSum_insert_some {s v a r : Nat} {l : List ((Nat × Nat) × Nat)}
    (h : mapGet (s, v) l = some r) :
    streamSum s (mapInsert (s, v) a l) + r = a + streamSum s l := by
  induction l with
  | nil => simp [mapGet] at h
  | cons hd tl ih =>
    obtain ⟨k, b⟩ := hd
    by_cases hk : (s, v) = k
    · subst hk
      simp only [mapGet, if_pos] at h
      cases h
      simp [mapInsert, streamSum]
      omega
    · simp only [mapGet, if_neg hk] at h
      simp only [mapInsert, if_neg hk, streamSum]
      have := ih h
      omega

theorem lookup_le_streamSum {s v r : Nat} {l : List ((Nat × Nat) × Nat)}
    (h : mapGet (s, v) l = some r) : r ≤ streamSum s l := by
  induction l with
  | nil => simp [mapGet] at h
  | cons hd tl ih =>
    obtain ⟨k, b⟩ := hd
    by_cases hk : (s, v) = k
    · subst hk
      simp only [mapGet, if_pos] at h
      cases h
      simp [streamSum]
    · simp only [mapGet, if_neg hk] at h
      have := ih h
      simp [streamSum]
      omega

theorem streamSum_insert_other {s' s v a : Nat} {l : List ((Nat × Nat) × Nat)}
    (h : s' ≠ s) :
    streamSum s' (mapInsert (s, v) a l) = streamSum s' l := by
  induction l with
  | nil => simp [streamSum, mapInsert, Ne.symm h]
  | cons hd tl ih =>
    obtain ⟨k, b⟩ := hd
    by_cases hk : (s, v) = k
    · subst hk; simp [mapInsert, streamSum, Ne.symm h]
    · simp [mapInsert, hk, streamSum, ih]

theorem entriesBounded_insert {k : Nat × Nat} {a : Nat}
    {l : List ((Nat × Nat) × Nat)} (hl : EntriesBounded l) (ha : a < U128MOD) :
    EntriesBounded (mapInsert k a l) := by
  intro k' b hb
  by_cases hk : k' = k
  · subst hk
    rw [mapGet_insert_self] at hb
    cases hb
    exact ha
  · rw [mapGet_insert_ne hk] at hb
    exact hl k' b hb

theorem commit_of_error {st : State} {r : RawOutcome} {e : DispatchError}
    (h : r.error = some e) : commit st r = ⟨st, [], [], some e⟩ := by
  unfold commit
  rw [h]

theorem commit_of_ok {st : State} {r : RawOutcome}
    (h : r.error = none) : commit st r = r := by
  unfold commit
  rw [h]

theorem sub128_eq_sub {a b : Nat} (hb : b ≤ a) (ha : a < U128MOD) :
    sub128 a b = a - b := by
  unfold sub128
  have h1 : a + U128MOD - b = (a - b) + U128MOD := by omega
  rw [h1, Nat.add_mod_right]
  exact Nat.mod_eq_of_lt (by omega)

theorem mul128_lt (a b : Nat) : mul128 a b < U128MOD :=
  Nat.mod_lt _ (by unfold U128MOD; positivity)

theorem sub128_lt (a b : Nat) : sub128 a b < U128MOD :=
  Nat.mod_lt _ (by unfold U128MOD; positivity)

theorem commit_state {st : State} {r : RawOutcome} {e : DispatchError}
    (h : (commit st r).error = some e) :
    (commit st r).state = st ∧ (commit st r).events = [] ∧
      (commit st r).transfers = [] := by
  cases hr : r.error with
  | none =>
    rw [commit_of_ok hr, hr] at h
    cases h
  | some e' =>
    rw [commit_of_error hr]
    exact ⟨rfl, rfl, rfl⟩

/-- FRAME rollback, at the dispatch level: an erroring call leaves the
ledger untouched and deposits no events, performs no transfers. -/
theorem dispatch_error_rollback {st : State} {o : Origin} {c : Call}
    {e : DispatchError} (h : (dispatch st o c).error = some e) :
    (dispatch st o c).state = st ∧ (dispatch st o c).events = [] ∧
      (dispatch st o c).transfers = [] := by
  unfold dispatch at h ⊢
  exact commit_state h

/-- Inversion of a successful `join_stream` dispatch. -/
theorem dispatch_join_ok {st : State} {o : Origin} {sid m : Nat}
    (h : (dispatch st o (.join_stream sid m)).error = none) :
    ∃ who str accs, o = .signed who ∧ mapGet sid st.streams = some str ∧
      reserveOp st.accounts who (mul128 str.price_per_second m) = some accs ∧
      dispatch st o (.join_stream sid m) =
        ⟨⟨st.streams,
          mapInsert (sid, who) (mul128 str.price_per_second m) st.balances,
          accs⟩, [], [], none⟩ := by
  cases o with
  | signed who =>
    cases hs : mapGet sid st.streams with
    | none => simp [dispatch, join_stream, commit, hs] at h
    | some str =>
      cases hr : reserveOp st.accounts who (mul128 str.price_per_second m) with
      | none => simp [dispatch, join_stream, commit, hs, hr] at h
      | some accs =>
        refine ⟨who, str, accs, rfl, rfl, hr, ?_⟩
        simp [dispatch, join_stream, commit, hs, hr]
  | none_ => simp [dispatch, join_stream, commit] at h
  | root => simp [dispatch, join_stream, commit] at h

/-- Inversion of a successful `tick` dispatch. -/
theorem dispatch_tick_ok {st : State} {o : Origin} {sid v t : Nat}
    (h : (dispatch st o (.tick sid v t)).error = none) :
    ∃ str reserved accs, o = .none_ ∧ mapGet sid st.streams = some str ∧
      mapGet (sid, v) st.balances = some reserved ∧
      mul128 str.price_per_second t ≤ reserved ∧
      transferOp st.accounts v str.creator (mul128 str.price_per_second t) =
        some accs ∧
      dispatch st o (.tick sid v t) =
        ⟨⟨mapInsert sid
            ⟨str.creator, str.price_per_second, add32 str.last_tick t⟩
            st.streams,
          mapInsert (sid, v) (sub128 reserved (mul128 str.price_per_second t))
            st.balances,
          accs⟩,
         [.TickProcessed sid v t],
         [(v, str.creator, mul128 str.price_per_second t)], none⟩ := by
  cases o with
  | signed who => simp [dispatch, tick, commit] at h
  | root => simp [dispatch, tick, commit] at h
  | none_ =>
    cases hs : mapGet sid st.streams with
    | none => simp [dispatch, tick, commit, hs] at h
    | some str =>
      cases hb : mapGet (sid, v) st.balances with
      | none => simp [dispatch, tick, commit, hs, hb] at h
      | some reserved =>
        by_cases hc : mul128 str.price_per_second t ≤ reserved
        · cases ht : transferOp st.accounts v str.creator
              (mul128 str.price_per_second t) with
          | none => simp [dispatch, tick, commit, hs, hb, hc, ht] at h
          | some accs =>
            refine ⟨str, reserved, accs, rfl, rfl, rfl, hc, ht, ?_⟩
            simp [dispatch, tick, commit, hs, hb, hc, ht]
        · simp [dispatch, tick, commit, hs, hb, hc] at h

theorem stepAcc_join_err {ts : TState} {o : Origin} {sid m : Nat}
    {e : DispatchError}
    (h : (dispatch ts.st o (.join_stream sid m)).error = some e) :
    stepAcc ts o (.join_stream sid m) =
      ⟨(dispatch ts.st o (.join_stream sid m)).state,
        ts.cred, ts.specCred, ts.esc⟩ := by
  simp only [stepAcc, h]

theorem stepAcc_tick_err {ts : TState} {o : Origin} {sid v t : Nat}
    {e : DispatchError}
    (h : (dispatch ts.st o (.tick sid v t)).error = some e) :
    stepAcc ts o (.tick sid v t) =
      ⟨(dispatch ts.st o (.tick sid v t)).state,
        ts.cred, ts.specCred, ts.esc⟩ := by
  simp only [stepAcc, h]

theorem dispatch_create_balances (st : State) (o : Origin) (sid p : Nat) :
    (dispatch st o (.create_stream sid p)).state.balances = st.balances := by
  cases o with
  | signed who =>
    cases hs : mapGet sid st.streams <;>
      simp [dispatch, create_stream, commit, hs]
  | none_ => simp [dispatch, create_stream, commit]
  | root => simp [dispatch, create_stream, commit]

/-- One step preserves the conservation invariant. -/
theorem inv_stepAcc {ts : TState} (h : Inv ts) (o : Origin) (c : Call) :
    Inv (stepAcc ts o c) := by
  obtain ⟨h1, h2, h3⟩ := h
  cases c with
  | create_stream sid p =>
    refine ⟨h1, ?_, ?_⟩
    · intro s
      have hb : (stepAcc ts o (.create_stream sid p)).st.balances
          = ts.st.balances := by
        simp only [stepAcc]
        exact dispatch_create_balances ts.st o sid p
      rw [hb]
      exact h2 s
    · have hb : (stepAcc ts o (.create_stream sid p)).st.balances
          = ts.st.balances := by
        simp only [stepAcc]
        exact dispatch_create_balances ts.st o sid p
      rw [show (stepAcc ts o (.create_stream sid p)).st.balances
          = ts.st.balances from hb]
      exact h3
  | join_stream sid m =>
    cases herr : (dispatch ts.st o (.join_stream sid m)).error with
    | some e =>
      rw [stepAcc_join_err herr, (dispatch_error_rollback herr).1]
      exact ⟨h1, h2, h3⟩
    | none =>
      obtain ⟨who, str, accs, ho, hs, hr, heq⟩ := dispatch_join_ok herr
      have hred : stepAcc ts o (.join_stream sid m) =
          ⟨⟨ts.st.streams,
            mapInsert (sid, who) (mul128 str.price_per_second m)
              ts.st.balances, accs⟩,
           ts.cred, ts.specCred,
           fun s => if s = sid then
             ts.esc s + mul128 str.price_per_second m else ts.esc s⟩ := by
        simp only [stepAcc, heq, hs]
      rw [hred]
      refine ⟨h1, ?_, entriesBounded_insert h3 (mul128_lt _ _)⟩
      intro s
      dsimp only
      by_cases hss : s = sid
      · subst hss
        rw [if_pos rfl]
        cases hb : mapGet (s, who) ts.st.balances with
        | none =>
          rw [streamSum_insert_none hb]
          have := h2 s
          omega
        | some r =>
          have hsum := streamSum_insert_some (a := mul128 str.price_per_second m) hb
          have := h2 s
          omega
      · rw [if_neg hss, streamSum_insert_other hss]
        exact h2 s
  | tick sid v t =>
    cases herr : (dispatch ts.st o (.tick sid v t)).error with
    | some e =>
      rw [stepAcc_tick_err herr, (dispatch_error_rollback herr).1]
      exact ⟨h1, h2, h3⟩
    | none =>
      obtain ⟨str, reserved, accs, ho, hs, hb, hc, ht, heq⟩ :=
        dispatch_tick_ok herr
      have hres : reserved < U128MOD := h3 _ _ hb
      have hred : stepAcc ts o (.tick sid v t) =
          ⟨⟨mapInsert sid
              ⟨str.creator, str.price_per_second, add32 str.last_tick t⟩
              ts.st.streams,
            mapInsert (sid, v)
              (sub128 reserved (mul128 str.price_per_second t))
              ts.st.balances, accs⟩,
           fun s => if s = sid then
             ts.cred s + mul128 str.price_per_second t else ts.cred s,
           fun s => if s = sid then
             ts.specCred s + mul128 str.price_per_second t else ts.specCred s,
           ts.esc⟩ := by
        simp only [stepAcc, heq, hs]
        simp [List.sum]
      rw [hred]
      refine ⟨?_, ?_, entriesBounded_insert h3 (sub128_lt _ _)⟩
      · intro s
        dsimp only
        by_cases hss : s = sid
        · rw [if_pos hss, if_pos hss, h1 s]
        · rw [if_neg hss, if_neg hss]
          exact h1 s
      · intro s
        dsimp only
        by_cases hss : s = sid
        · subst hss
          rw [if_pos rfl, sub128_eq_sub hc hres]
          have hsum := streamSum_insert_some
            (a := reserved - mul128 str.price_per_second t) hb
          have hle := lookup_le_streamSum hb
          have := h2 s
          omega
        · rw [if_neg hss, streamSum_insert_other hss]
          exact h2 s

/-- The invariant holds along every run from an invariant state. -/
theorem inv_runAcc {ts : TState} (h : Inv ts) :
    ∀ cs : List (Origin × Call), Inv (runAcc ts cs) := by
  intro cs
  induction cs generalizing ts with
  | nil => exact h
  | cons oc rest ih =>
    obtain ⟨o, c⟩ := oc
    exact ih (inv_stepAcc h o c)

theorem inv_genesisT (accounts0 : Nat → Account) : Inv (genesisT accounts0) := by
  refine ⟨fun _ => rfl, fun s => ?_, fun k a hk => ?_⟩
  · simp [genesisT, genesis, streamSum]
  · simp [genesisT, genesis, mapGet] at hk

theorem stepAcc_st (ts : TState) (o : Origin) (c : Call) :
    (stepAcc ts o c).st = (dispatch ts.st o c).state := by
  simp only [stepAcc]
  split <;> rfl

theorem runS_eq_runAcc (ts : TState) (cs : List (Origin × Call)) :
    runS ts.st cs = (runAcc ts cs).st := by
  induction cs generalizing ts with
  | nil => rfl
  | cons oc rest ih =>
    obtain ⟨o, c⟩ := oc
    simp only [runS, runAcc]
    rw [← stepAcc_st]
    exact ih _

/-- The raw `tick` body really can leave a partially-written state when the
funds-ledger transfer fails after the `Balances` write (here the viewer's
whole balance is reserved, so the free-balance transfer fails): the
transactional `commit` wrapper is what discharges the no-partial-write
contract, exactly as FRAME's storage transactions do. -/
theorem tick_body_partial_write_example :
    ∃ st : State, (tick st .none_ 1 2 1).error = some .fundsUnavailable ∧
      (tick st .none_ 1 2 1).state.balances ≠ st.balances := by
  refine ⟨⟨[(1, ⟨1, 10, 0⟩)], [((1, 2), 50)], fun _ => ⟨0, 50⟩⟩, ?_, ?_⟩ <;>
    decide

/-! ### Claim theorems -/

/-- C1 (counterexample): the funds actually transferred to the creator by
successful ticks do NOT equal the sum of `price_per_second * ticks` (true
multiplication).  On the reachable trace `create(price 2^127)`,
`join(max_seconds 2)`, `tick(ticks 2)`, the tick succeeds and transfers 0,
while the sum of `price_per_second * ticks` is `2^128`: the code computes
the cost with wrapping `u128` multiplication. -/
theorem conservation_counterexample :
    (runAcc (genesisT (fun _ => ⟨0, 0⟩))
        [(.signed 1, .create_stream 1 (2 ^ 127)), (.signed 2, .join_stream 1 2),
         (.none_, .tick 1 2 2)]).cred 1 = 0 ∧
    mathCred (genesis (fun _ => ⟨0, 0⟩)) 1
        [(.signed 1, .create_stream 1 (2 ^ 127)), (.signed 2, .join_stream 1 2),
         (.none_, .tick 1 2 2)] = 2 ^ 128 ∧
    (runAcc (genesisT (fun _ => ⟨0, 0⟩))
        [(.signed 1, .create_stream 1 (2 ^ 127)), (.signed 2, .join_stream 1 2),
         (.none_, .tick 1 2 2)]).cred 1 ≠
      mathCred (genesis (fun _ => ⟨0, 0⟩)) 1
        [(.signed 1, .create_stream 1 (2 ^ 127)), (.signed 2, .join_stream 1 2),
         (.none_, .tick 1 2 2)] := by
  refine ⟨?_, ?_, ?_⟩ <;> decide

/-- C1 (amended): over every trace from genesis, the cumulative funds moved
to the stream's creator by successful `tick` calls (`cred`, summed from the
transfers actually performed on the funds ledger) equals the cumulative
`(price_per_second * ticks) mod 2^128` of those successful ticks
(`specCred`, with the wrapping `u128` multiplication the code performs —
not the true product, see the counterexample), and never exceeds the
cumulative amount escrowed for the stream by `join_stream` (`esc`). -/
theorem conservation_holds (accounts0 : Nat → Account)
    (cs : List (Origin × Call)) (s : Nat) :
    (runAcc (genesisT accounts0) cs).cred s =
      (runAcc (genesisT accounts0) cs).specCred s ∧
    (runAcc (genesisT accounts0) cs).cred s ≤
      (runAcc (genesisT accounts0) cs).esc s := by
  obtain ⟨h1, h2, h3⟩ := inv_runAcc (inv_genesisT accounts0) cs
  exact ⟨h1 s, le_trans (Nat.le_add_right _ _) (h2 s)⟩

/-- C2: any call that returns an error leaves the full ledger state
unchanged and deposits no event (and performs no funds transfer); FRAME's
transactional dispatch reverts every partial write. -/
theorem error_rollback (st : State) (o : Origin) (c : Call)
    (e : DispatchError) (h : (dispatch st o c).error = some e) :
    (dispatch st o c).state = st ∧ (dispatch st o c).events = [] ∧
      (dispatch st o c).transfers = [] :=
  dispatch_error_rollback h

/-- Witness for C2: a root-origin `create_stream` fails and leaves genesis
untouched. -/
theorem error_rollback_witness :
    (dispatch (genesis (fun _ => ⟨0, 0⟩)) .root (.create_stream 1 1)).state =
      genesis (fun _ => ⟨0, 0⟩) ∧
    (dispatch (genesis (fun _ => ⟨0, 0⟩)) .root (.create_stream 1 1)).events =
      [] :=
  ⟨(error_rollback (genesis (fun _ => ⟨0, 0⟩)) .root (.create_stream 1 1)
      .badOrigin rfl).1,
   (error_rollback (genesis (fun _ => ⟨0, 0⟩)) .root (.create_stream 1 1)
      .badOrigin rfl).2.1⟩

/-- C3: a `tick` whose cost exceeds the recorded reservation fails with
`InsufficientBalance` and changes nothing (no partial debit); along every
trace from genesis all reservations stay within `u128` range; and a
successful `tick` debits exactly `cost`, with the subtraction performed on a
reservation at least as large as the cost — so the reservation never goes
below zero (no underflow ever occurs). -/
theorem no_negative_escrow :
    (∀ (st : State) (sid v t : Nat) (str : Stream) (r : Nat),
      mapGet sid st.streams = some str →
      mapGet (sid, v) st.balances = some r →
      r < mul128 str.price_per_second t →
      dispatch st .none_ (.tick sid v t) =
        ⟨st, [], [], some (.module .InsufficientBalance)⟩) ∧
    (∀ (accounts0 : Nat → Account) (cs : List (Origin × Call))
      (k : Nat × Nat) (a : Nat),
      mapGet k (runS (genesis accounts0) cs).balances = some a →
      a < U128MOD) ∧
    (∀ (st : State) (sid v t : Nat) (str : Stream) (r : Nat),
      mapGet sid st.streams = some str →
      mapGet (sid, v) st.balances = some r →
      r < U128MOD →
      (dispatch st .none_ (.tick sid v t)).error = none →
      mul128 str.price_per_second t ≤ r ∧
      mapGet (sid, v) (dispatch st .none_ (.tick sid v t)).state.balances =
        some (r - mul128 str.price_per_second t)) := by
  refine ⟨?_, ?_, ?_⟩
  · intro st sid v t str r hs hb hlt
    have hc : ¬ mul128 str.price_per_second t ≤ r := by omega
    simp [dispatch, tick, commit, hs, hb, hc]
  · intro accounts0 cs k a hk
    rw [show genesis accounts0 = (genesisT accounts0).st from rfl,
      runS_eq_runAcc] at hk
    exact (inv_runAcc (inv_genesisT accounts0) cs).2.2 k a hk
  · intro st sid v t str r hs hb hr hok
    obtain ⟨str', r', accs, _, hs', hb', hc', ht', heq⟩ :=
      dispatch_tick_ok hok
    rw [hs] at hs'
    rw [hb] at hb'
    cases hs'
    cases hb'
    refine ⟨hc', ?_⟩
    rw [heq]
    simp only [mapGet_insert_self]
    rw [sub128_eq_sub hc' hr]

/-- Witness for C3: with price 10 and a reservation of 5, a 1-second tick
fails; a fresh join records a reservation of 30 < 2^128; with a reservation
of 50 a 3-second tick debits exactly 30, leaving 20. -/
theorem no_negative_escrow_witness :
    dispatch ⟨[(1, ⟨1, 10, 0⟩)], [((1, 2), 5)], fun _ => ⟨100, 0⟩⟩
        .none_ (.tick 1 2 1) =
      ⟨⟨[(1, ⟨1, 10, 0⟩)], [((1, 2), 5)], fun _ => ⟨100, 0⟩⟩, [], [],
        some (.module .InsufficientBalance)⟩ ∧
    (30 : Nat) < U128MOD ∧
    (mul128 10 3 ≤ 50 ∧
      mapGet (1, 2)
        (dispatch ⟨[(1, ⟨1, 10, 0⟩)], [((1, 2), 50)], fun _ => ⟨100, 0⟩⟩
          .none_ (.tick 1 2 3)).state.balances = some (50 - mul128 10 3)) :=
  ⟨no_negative_escrow.1 ⟨[(1, ⟨1, 10, 0⟩)], [((1, 2), 5)], fun _ => ⟨100, 0⟩⟩
      1 2 1 ⟨1, 10, 0⟩ 5 rfl rfl (by decide),
   no_negative_escrow.2.1 (fun _ => ⟨100, 0⟩)
      [(.signed 1, .create_stream 1 10), (.signed 2, .join_stream 1 3)]
      (1, 2) 30 (by decide),
   no_negative_escrow.2.2 ⟨[(1, ⟨1, 10, 0⟩)], [((1, 2), 50)], fun _ => ⟨100, 0⟩⟩
      1 2 3 ⟨1, 10, 0⟩ 50 rfl rfl (by decide) (by decide)⟩

/-- C4 (code bug): the balance multiplications in `join_stream` (line 85)
and `tick` (line 102) are plain wrapping `u128` multiplications, not checked
ones.  At `price_per_second = 2^127` and `ticks = max_seconds = 2` the
product wraps to 0, so joining escrows 0 and the tick succeeds transferring
0 to the creator instead of aborting with an overflow failure (the error
enum has no `ArithmeticOverflow` variant at all). -/
theorem overflow_wraps_failing_input :
    mul128 (2 ^ 127) 2 = 0 ∧ 2 ^ 127 * 2 = 2 ^ 128 ∧
    (let st0 := genesis (fun _ => ⟨0, 0⟩)
     let st1 := (dispatch st0 (.signed 1) (.create_stream 1 (2 ^ 127))).state
     let st2 := (dispatch st1 (.signed 2) (.join_stream 1 2)).state
     let out := dispatch st2 .none_ (.tick 1 2 2)
     out.error = none ∧ out.transfers = [(2, 1, 0)] ∧
       mapGet 1 out.state.streams = some ⟨1, 2 ^ 127, 2⟩) := by
  refine ⟨by decide, by decide, ?_, ?_, ?_⟩ <;> decide

/-- C5 (counterexample): `last_tick` is not strictly increased by every
successful tick.  With `price_per_second = 0`, a tick of `2^32 - 1` seconds
followed by a tick of 1 second succeeds and wraps `last_tick` back to 0
(a strict decrease), and a tick of 0 seconds succeeds leaving `last_tick`
unchanged. -/
theorem tick_monotonic_counterexample :
    (let st0 := genesis (fun _ => ⟨0, 0⟩)
     let st1 := (dispatch st0 (.signed 1) (.create_stream 1 0)).state
     let st2 := (dispatch st1 (.signed 2) (.join_stream 1 0)).state
     let st3 := (dispatch st2 .none_ (.tick 1 2 (2 ^ 32 - 1))).state
     let out := dispatch st3 .none_ (.tick 1 2 1)
     mapGet 1 st3.streams = some ⟨1, 0, 2 ^ 32 - 1⟩ ∧
       out.error = none ∧ mapGet 1 out.state.streams = some ⟨1, 0, 0⟩) ∧
    (let st0 := genesis (fun _ => ⟨0, 0⟩)
     let st1 := (dispatch st0 (.signed 1) (.create_stream 1 0)).state
     let st2 := (dispatch st1 (.signed 2) (.join_stream 1 0)).state
     let out := dispatch st2 .none_ (.tick 1 2 0)
     out.error = none ∧ mapGet 1 out.state.streams = some ⟨1, 0, 0⟩) := by
  constructor <;> decide

/-- C5 (amended): after every successful `tick`, `last_tick` becomes
`(last_tick + ticks) mod 2^32` (wrapping `u32` addition); whenever
`ticks ≥ 1` and the addition does not overflow, `last_tick` strictly
increases, by exactly `ticks`. -/
theorem tick_last_tick_amended (st : State) (sid v t : Nat) (str : Stream)
    (hs : mapGet sid st.streams = some str)
    (hok : (dispatch st .none_ (.tick sid v t)).error = none) :
    mapGet sid (dispatch st .none_ (.tick sid v t)).state.streams =
      some ⟨str.creator, str.price_per_second, add32 str.last_tick t⟩ ∧
    add32 str.last_tick t = (str.last_tick + t) % U32MOD ∧
    (1 ≤ t → str.last_tick + t < U32MOD →
      str.last_tick < add32 str.last_tick t ∧
      add32 str.last_tick t = str.last_tick + t) := by
  obtain ⟨str', r', accs, _, hs', hb', hc', ht', heq⟩ := dispatch_tick_ok hok
  rw [hs] at hs'
  cases hs'
  refine ⟨?_, rfl, ?_⟩
  · rw [heq]
    simp only [mapGet_insert_self]
  · intro h1 h2
    have : add32 str.last_tick t = str.last_tick + t := by
      unfold add32
      exact Nat.mod_eq_of_lt h2
    omega

/-- Witness for C5 (amended): a concrete successful tick of 3 seconds takes
`last_tick` from 0 to 3. -/
theorem tick_last_tick_amended_witness :
    mapGet 1 (dispatch ⟨[(1, ⟨1, 10, 0⟩)], [((1, 2), 50)], fun _ => ⟨100, 0⟩⟩
        .none_ (.tick 1 2 3)).state.streams = some ⟨1, 10, add32 0 3⟩ ∧
    (1 ≤ 3 → 0 + 3 < U32MOD → 0 < add32 0 3 ∧ add32 0 3 = 0 + 3) :=
  ⟨(tick_last_tick_amended
      ⟨[(1, ⟨1, 10, 0⟩)], [((1, 2), 50)], fun _ => ⟨100, 0⟩⟩ 1 2 3 ⟨1, 10, 0⟩
      rfl rfl).1,
   (tick_last_tick_amended
      ⟨[(1, ⟨1, 10, 0⟩)], [((1, 2), 50)], fun _ => ⟨100, 0⟩⟩ 1 2 3 ⟨1, 10, 0⟩
      rfl rfl).2.2⟩

/-- C6 (code bug): `create_stream` on an existing `stream_id` always fails
without overwriting the record — but the error it returns is
`Error::StreamNotFound` (the source's error enum has no `StreamExists`
variant), not the `StreamExists` the spec names. -/
theorem duplicate_create_failing_input :
    (let st0 := genesis (fun _ => ⟨0, 0⟩)
     let st1 := (dispatch st0 (.signed 1) (.create_stream 7 10)).state
     let out := dispatch st1 (.signed 2) (.create_stream 7 20)
     out.error = some (.module .StreamNotFound) ∧
       mapGet 7 out.state.streams = some ⟨1, 10, 0⟩ ∧ out.events = []) := by
  refine ⟨?_, ?_, ?_⟩ <;> decide

/-- C7 (counterexample): the admission policy's dedup tag does not include
the stream identifier — ticks on streams 1 and 2 get the identical validity
record, including the identical constant tag. -/
theorem dedup_tag_collision_counterexample :
    validate_unsigned (.tick 1 0 1) = validate_unsigned (.tick 2 0 1) ∧
    validate_unsigned (.tick 1 0 1) =
      .valid ⟨100, [("vilokanam", "tick")], 5, true⟩ :=
  ⟨rfl, rfl⟩

/-- C7 (amended): the dedup tag of every unsigned `tick` is the constant
`("vilokanam", "tick")`, so pending ticks for different streams carry the
same tag and collapse onto a single admission slot. -/
theorem dedup_tag_constant (sid v t : Nat) :
    validate_unsigned (.tick sid v t) =
      .valid ⟨100, [("vilokanam", "tick")], 5, true⟩ ∧
    ∀ sid' v' t', validate_unsigned (.tick sid v t) =
      validate_unsigned (.tick sid' v' t') :=
  ⟨rfl, fun _ _ _ => rfl⟩

/-- C8: the admission policy rejects every non-`tick` unsigned call with
`InvalidTransaction::Call`, and accepts every `tick` with fixed priority
100, longevity 5 and propagation enabled; it is a pure function of the call
alone, independent of ledger state. -/
theorem admission_policy_ok :
    (∀ sid v t, validate_unsigned (.tick sid v t) =
      .valid ⟨100, [("vilokanam", "tick")], 5, true⟩) ∧
    (∀ c, isTick c = false → validate_unsigned c = .invalidCall) := by
  refine ⟨fun _ _ _ => rfl, ?_⟩
  intro c h
  cases c <;> first | rfl | simp [isTick] at h

/-- Witness for C8: a `tick` on stream 1 is valid with the fixed constants;
a `create_stream` call is rejected. -/
theorem admission_policy_ok_witness :
    validate_unsigned (.tick 1 2 3) =
      .valid ⟨100, [("vilokanam", "tick")], 5, true⟩ ∧
    validate_unsigned (.create_stream 4 5) = .invalidCall :=
  ⟨admission_policy_ok.1 1 2 3, admission_policy_ok.2 (.create_stream 4 5) rfl⟩

/-- C9: a successful `join_stream` by a viewer who already holds a
reservation `r` on the stream overwrites the stored reservation with the
newly computed amount `price_per_second * max_seconds`, independent of `r`
(no accumulation). -/
theorem join_overwrites_reservation (st : State) (who sid m r : Nat)
    (str : Stream) (hs : mapGet sid st.streams = some str)
    (_hprev : mapGet (sid, who) st.balances = some r)
    (hok : (dispatch st (.signed who) (.join_stream sid m)).error = none) :
    mapGet (sid, who)
        (dispatch st (.signed who) (.join_stream sid m)).state.balances =
      some (mul128 str.price_per_second m) := by
  obtain ⟨who', str', accs, ho, hs', hr', heq⟩ := dispatch_join_ok hok
  cases ho
  rw [hs] at hs'
  cases hs'
  rw [heq]
  simp only [mapGet_insert_self]

/-- Witness for C9: re-joining with a prior reservation of 50 at price 10
for 3 seconds stores 30 (not 80). -/
theorem join_overwrites_reservation_witness :
    mapGet (1, 2)
        (dispatch ⟨[(1, ⟨1, 10, 0⟩)], [((1, 2), 50)], fun _ => ⟨100, 0⟩⟩
          (.signed 2) (.join_stream 1 3)).state.balances =
      some (mul128 10 3) ∧ mul128 10 3 ≠ 50 + mul128 10 3 :=
  ⟨join_overwrites_reservation
      ⟨[(1, ⟨1, 10, 0⟩)], [((1, 2), 50)], fun _ => ⟨100, 0⟩⟩ 2 1 3 50
      ⟨1, 10, 0⟩ rfl rfl rfl,
   by decide⟩

/-- C10: a `tick` dispatched with any non-none origin (signed or root) fails
with `BadOrigin`, leaving the ledger untouched and depositing nothing, for
every ledger state alike — only origin-less calls reach the metering
logic. -/
theorem tick_requires_none_origin (st : State) (o : Origin) (sid v t : Nat)
    (h : o ≠ .none_) :
    dispatch st o (.tick sid v t) = ⟨st, [], [], some .badOrigin⟩ := by
  cases o with
  | signed who => rfl
  | none_ => exact absurd rfl h
  | root => rfl

/-- Witness for C10: a signed tick on genesis is rejected with `BadOrigin`
and genesis is unchanged. -/
theorem tick_requires_none_origin_witness :
    dispatch (genesis (fun _ => ⟨0, 0⟩)) (.signed 9) (.tick 1 2 3) =
      ⟨genesis (fun _ => ⟨0, 0⟩), [], [], some .badOrigin⟩ :=
  tick_requires_none_origin (genesis (fun _ => ⟨0, 0⟩)) (.signed 9) 1 2 3
    (by decide)

end Vilokanam
